import Mathlib

/-!
Verification of the `pe` package of the wingoes repository (PE binary parser).

The Go source (`pe/pe_windows.go` and its build-variant files) is shallowly
embedded below.  Bytes are modelled as `Nat` values (< 256 for real inputs),
byte sequences as `List Nat`, machine integers as `Nat` with explicit
`% 2^32` / bound checks wherever the Go code can overflow or truncate.
The embedding models the 64-bit build variant (`optionalHeader` is
`dpe.OptionalHeader64`, pointers are 8 bytes wide), matching the build files
that alias `optionalHeader` to `OptionalHeader64`.
-/

/-- Two to the 32nd, the modulus of Go's `uint32` arithmetic. -/
def u32Mod : Nat := 4294967296

/-- The error values declared at the top of `pe_windows.go`, together with the
raw I/O conditions (`io.EOF`, `io.ErrUnexpectedEOF`) that the code can surface
unwrapped, and a marker for a Go runtime panic (out-of-range slice index or a
`make` with a negative length).  `fuelExhausted` is an artifact of the
fuel-bounded embedding of the certificate-extraction loop; it is unreachable
for the fuel the wrapper supplies. -/
inductive PErr where
  | errBadLength
  | errNotCodeView
  | errNotPresent
  | errIndexOutOfRange
  | errInvalidBinary
  | errUnavailableInModule
  | errUnsupportedMachine
  | ioEOF
  | ioUnexpectedEOF
  | runtimePanic
  | fuelExhausted
deriving DecidableEq, Repr

/-- `dpe.DataDirectory`: one slot of the optional header's data directory. -/
structure DataDirectory where
  virtualAddress : Nat
  size : Nat
deriving DecidableEq, Repr

/-- `dpe.FileHeader` (20 bytes on the wire). -/
structure FileHeader where
  machine : Nat
  numberOfSections : Nat
  timeDateStamp : Nat
  pointerToSymbolTable : Nat
  numberOfSymbols : Nat
  sizeOfOptionalHeader : Nat
  characteristics : Nat
deriving DecidableEq, Repr

/-- `type optionalHeader dpe.OptionalHeader64` (240 bytes on the wire).
Only the fields the parser consults are decoded: `Magic`,
`NumberOfRvaAndSizes` and the 16-entry `DataDirectory` array; the remaining
fields are read from the file (the full 240 bytes must be present) but never
inspected by any modelled operation. -/
structure OptionalHeader where
  magic : Nat
  numberOfRvaAndSizes : Nat
  dataDirectory : List DataDirectory
deriving DecidableEq, Repr

/-- `dpe.SectionHeader32` (40 bytes on the wire), the element type of the
section table (`peSectionHeader` embeds it unchanged). -/
structure SectionHeader32 where
  name : List Nat
  virtualSize : Nat
  virtualAddress : Nat
  sizeOfRawData : Nat
  pointerToRawData : Nat
  pointerToRelocations : Nat
  pointerToLineNumbers : Nat
  numberOfRelocations : Nat
  numberOfLineNumbers : Nat
  characteristics : Nat
deriving DecidableEq, Repr

/-- The two implementations of the `peReader` interface:
`peFile` (file-backed, `Base() = 0`, `Limit()` = file size obtained from
`Stat`) and `peModule` (a `bytes.Reader` over the module's memory at
`base`, `Limit() = base + size`). -/
inductive PeReader where
  | file (data : List Nat)
  | module (mem : List Nat) (base : Nat)
deriving DecidableEq, Repr

/-- The byte sequence a reader's `ReadAt`/`Read` operations range over
(offset 0 of a `peModule`'s `bytes.Reader` is the module base). -/
def PeReader.bytes : PeReader → List Nat
  | .file data => data
  | .module mem _ => mem

/-- `Base()`: 0 for a `peFile`, the load address for a `peModule`. -/
def PeReader.base : PeReader → Nat
  | .file _ => 0
  | .module _ b => b

/-- `Limit()`: the file size for a `peFile`, `base + size` for a `peModule`. -/
def PeReader.limit : PeReader → Nat
  | .file data => data.length
  | .module mem b => b + mem.length

/-- `PEInfo`: the partially-parsed headers of a PE binary. -/
structure PEInfo where
  r : PeReader
  fileHeader : FileHeader
  optionalHeader : OptionalHeader
  sections : List SectionHeader32
deriving DecidableEq, Repr

/-- Byte of a sequence at an index (0 past the end; callers check bounds). -/
def byteAt (d : List Nat) (i : Nat) : Nat := d.getD i 0

/-- Little-endian `uint16` at offset `i`. -/
def readU16 (d : List Nat) (i : Nat) : Nat := byteAt d i + 256 * byteAt d (i + 1)

/-- Little-endian `uint32` at offset `i`. -/
def readU32 (d : List Nat) (i : Nat) : Nat := readU16 d i + 65536 * readU16 d (i + 2)

/-- `resolveRVA`'s scan over `nfo.sections` (the `for _, s := range` loop):
skip a section unless `va ≤ rva < (va+vsize) mod 2^32` (`uint32` addition);
at the first match return `(ptr + (rva-va)) mod 2^32`, or 0 when that offset
reaches `(ptr + srd) mod 2^32`; return 0 when no section matches. -/
def resolveSections (rva : Nat) : List SectionHeader32 → Nat
  | [] => 0
  | s :: rest =>
    if rva < s.virtualAddress then resolveSections rva rest
    else if (s.virtualAddress + s.virtualSize) % u32Mod ≤ rva then resolveSections rva rest
    else
      let voff := rva - s.virtualAddress
      let foff := (s.pointerToRawData + voff) % u32Mod
      if (s.pointerToRawData + s.sizeOfRawData) % u32Mod ≤ foff then 0 else foff

/-- `resolveRVA`: identity for a module-backed reader; for a file-backed
reader, translate through the section table (`urva := uint32(rva)`). -/
def resolveRVA (nfo : PEInfo) (rva : Nat) : Nat :=
  match nfo.r with
  | .module _ _ => rva
  | .file _ => resolveSections (rva % u32Mod) nfo.sections

/-- The matching test of `resolveRVA`'s loop, exactly as the code computes it
(`uint32` overflow in `va + vsize` included). -/
def codeMatches (s : SectionHeader32) (rva : Nat) : Prop :=
  s.virtualAddress ≤ rva ∧ rva < (s.virtualAddress + s.virtualSize) % u32Mod

instance (s : SectionHeader32) (rva : Nat) : Decidable (codeMatches s rva) := by
  unfold codeMatches; infer_instance

/-- Membership of `rva` in a section's virtual range in plain arithmetic,
the way the specification states it. -/
def plainMatches (s : SectionHeader32) (rva : Nat) : Prop :=
  s.virtualAddress ≤ rva ∧ rva < s.virtualAddress + s.virtualSize

instance (s : SectionHeader32) (rva : Nat) : Decidable (plainMatches s rva) := by
  unfold plainMatches; infer_instance

/-- Claim C2 exactly as stated: for a file-backed reader and an RVA inside
the virtual range of some section, taking the first section (table order)
whose range contains the RVA, if the offset `ptr + (rva - va)` does not
exceed `ptr + srd` then `resolveRVA` returns that offset.  (All section
fields are `uint32` values, hence the `< 2^32` bounds.) -/
def claimC2Stated : Prop :=
  ∀ (data : List Nat) (fh : FileHeader) (oh : OptionalHeader)
    (pre post : List SectionHeader32) (s : SectionHeader32) (rva : Nat),
    (∀ t ∈ pre, ¬ plainMatches t rva) →
    plainMatches s rva →
    rva < u32Mod →
    s.virtualAddress < u32Mod → s.virtualSize < u32Mod →
    s.pointerToRawData < u32Mod → s.sizeOfRawData < u32Mod →
    s.pointerToRawData + (rva - s.virtualAddress) ≤
      s.pointerToRawData + s.sizeOfRawData →
    resolveRVA ⟨.file data, fh, oh, pre ++ s :: post⟩ rva =
      s.pointerToRawData + (rva - s.virtualAddress)

/-- A matching test that succeeds in the code's `uint32` arithmetic also
succeeds in plain arithmetic (`(va+vsize) % 2^32 ≤ va+vsize`). -/
lemma codeMatches_plain {s : SectionHeader32} {rva : Nat} (h : codeMatches s rva) :
    plainMatches s rva :=
  ⟨h.1, lt_of_lt_of_le h.2 (Nat.mod_le _ _)⟩

/-- The scan of `resolveRVA` skips a section that fails the code's test. -/
lemma resolveSections_skip (rva : Nat) (t : SectionHeader32)
    (rest : List SectionHeader32) (h : ¬ codeMatches t rva) :
    resolveSections rva (t :: rest) = resolveSections rva rest := by
  by_cases h1 : rva < t.virtualAddress
  · simp [resolveSections, h1]
  · have h2 : (t.virtualAddress + t.virtualSize) % u32Mod ≤ rva := by
      by_contra hc
      exact h ⟨Nat.le_of_not_lt h1, Nat.lt_of_not_le hc⟩
    simp [resolveSections, h1, h2]

/-- The scan of `resolveRVA` at the first section passing the code's test. -/
lemma resolveSections_match (rva : Nat) (s : SectionHeader32)
    (rest : List SectionHeader32) (h : codeMatches s rva) :
    resolveSections rva (s :: rest) =
      (if (s.pointerToRawData + s.sizeOfRawData) % u32Mod ≤
          (s.pointerToRawData + (rva - s.virtualAddress)) % u32Mod then 0
       else (s.pointerToRawData + (rva - s.virtualAddress)) % u32Mod) := by
  have h1 : ¬ rva < s.virtualAddress := Nat.not_lt.mpr h.1
  have h2 : ¬ (s.virtualAddress + s.virtualSize) % u32Mod ≤ rva := Nat.not_le.mpr h.2
  simp [resolveSections, h1, h2]

/-- C2, counterexample to the claim as stated: one section with
`virtualAddress = 0`, `virtualSize = 2`, `pointerToRawData = 0`,
`sizeOfRawData = 1`, and `rva = 1`.  The computed offset `0 + (1 - 0) = 1`
does not exceed `pointerToRawData + sizeOfRawData = 1`, so the claim says
`resolveRVA` returns 1; the code's `foff >= ptr + srd` test fires at
equality and returns 0 instead. -/
theorem c2_counterexample : ¬ claimC2Stated := by
  intro h
  have := h [] ⟨0, 0, 0, 0, 0, 0, 0⟩ ⟨0, 0, []⟩ [] []
    ⟨[], 2, 0, 1, 0, 0, 0, 0, 0, 0⟩ 1
    (by simp) (by constructor <;> decide) (by decide) (by decide) (by decide)
    (by decide) (by decide) (by decide)
  exact absurd this (by decide)

/-- C2 (amended: the computed offset must be strictly below
`pointerToRawData + sizeOfRawData`; the sums are required not to overflow
`uint32`): `resolveRVA` is the identity for memory-mapped input, and for
file-backed input, for an RVA in the virtual range of the first matching
section (in table order) it returns `pointerToRawData + (rva - virtualAddress)`. -/
theorem c2_resolveRVA :
    (∀ (mem : List Nat) (b : Nat) (fh : FileHeader) (oh : OptionalHeader)
       (secs : List SectionHeader32) (rva : Nat),
       resolveRVA ⟨.module mem b, fh, oh, secs⟩ rva = rva) ∧
    (∀ (data : List Nat) (fh : FileHeader) (oh : OptionalHeader)
       (pre post : List SectionHeader32) (s : SectionHeader32) (rva : Nat),
       (∀ t ∈ pre, ¬ plainMatches t rva) →
       plainMatches s rva →
       s.virtualAddress + s.virtualSize < u32Mod →
       s.pointerToRawData + s.sizeOfRawData < u32Mod →
       s.pointerToRawData + (rva - s.virtualAddress) <
         s.pointerToRawData + s.sizeOfRawData →
       resolveRVA ⟨.file data, fh, oh, pre ++ s :: post⟩ rva =
         s.pointerToRawData + (rva - s.virtualAddress)) := by
  constructor
  · intro mem b fh oh secs rva
    rfl
  · intro data fh oh pre post s rva hpre hs hnov hnof hlt
    have hrva : rva < u32Mod := lt_trans hs.2 hnov
    have hmod : rva % u32Mod = rva := Nat.mod_eq_of_lt hrva
    show resolveSections (rva % u32Mod) (pre ++ s :: post) = _
    rw [hmod]
    induction pre with
    | nil =>
      have hcm : codeMatches s rva := by
        refine ⟨hs.1, ?_⟩
        rw [Nat.mod_eq_of_lt hnov]
        exact hs.2
      rw [List.nil_append, resolveSections_match rva s post hcm]
      have hfoff : (s.pointerToRawData + (rva - s.virtualAddress)) % u32Mod =
          s.pointerToRawData + (rva - s.virtualAddress) :=
        Nat.mod_eq_of_lt (lt_trans hlt hnof)
      rw [hfoff, Nat.mod_eq_of_lt hnof, if_neg (Nat.not_le.mpr hlt)]
    | cons t pre ih =>
      have hnt : ¬ codeMatches t rva := fun hc =>
        hpre t (List.mem_cons_self t pre) (codeMatches_plain hc)
      rw [List.cons_append, resolveSections_skip rva t _ hnt]
      exact ih (fun u hu => hpre u (List.mem_cons_of_mem t hu))

/-- Witness for `c2_resolveRVA` at concrete inputs: a module-backed resolve of
RVA 7, and a file-backed resolve through the single section
`{virtualAddress := 0, virtualSize := 16, pointerToRawData := 100,
sizeOfRawData := 16}` at RVA 3, giving file offset 103. -/
theorem c2_resolveRVA_witness :
    resolveRVA ⟨.module [1, 2] 5, ⟨0, 0, 0, 0, 0, 0, 0⟩, ⟨0, 0, []⟩, []⟩ 7 = 7 ∧
    resolveRVA ⟨.file [], ⟨0, 0, 0, 0, 0, 0, 0⟩, ⟨0, 0, []⟩,
        [] ++ ⟨[], 16, 0, 16, 100, 0, 0, 0, 0, 0⟩ :: []⟩ 3 = 103 :=
  ⟨c2_resolveRVA.1 [1, 2] 5 ⟨0, 0, 0, 0, 0, 0, 0⟩ ⟨0, 0, []⟩ [] 7,
   c2_resolveRVA.2 [] ⟨0, 0, 0, 0, 0, 0, 0⟩ ⟨0, 0, []⟩ [] []
     ⟨[], 16, 0, 16, 100, 0, 0, 0, 0, 0⟩ 3
     (by simp) (by constructor <;> decide) (by decide) (by decide) (by decide)⟩

/-- `rva` resolves through `secs` to file offset `off` by the code's own
arithmetic: the first section passing the loop's test yields an in-range
offset equal to `off`. -/
def legitimatelyResolves (secs : List SectionHeader32) (rva off : Nat) : Prop :=
  ∃ pre s post, secs = pre ++ s :: post ∧
    (∀ t ∈ pre, ¬ codeMatches t rva) ∧ codeMatches s rva ∧
    ¬ ((s.pointerToRawData + s.sizeOfRawData) % u32Mod ≤
       (s.pointerToRawData + (rva - s.virtualAddress)) % u32Mod) ∧
    off = (s.pointerToRawData + (rva - s.virtualAddress)) % u32Mod

/-- Claim C3 exactly as stated: for file-backed input, the result returned
for an RVA contained in no section's virtual range is a value that can never
coincide with a legitimately resolved file offset of zero. -/
def claimC3Stated : Prop :=
  ∀ (dU dR : List Nat) (fhU fhR : FileHeader) (ohU ohR : OptionalHeader)
    (secsU secsR : List SectionHeader32) (rvaU rvaR : Nat),
    (∀ s ∈ secsU, ¬ codeMatches s (rvaU % u32Mod)) →
    legitimatelyResolves secsR (rvaR % u32Mod) 0 →
    resolveRVA ⟨.file dU, fhU, ohU, secsU⟩ rvaU ≠
      resolveRVA ⟨.file dR, fhR, ohR, secsR⟩ rvaR

/-- C3, counterexample to the claim as stated: over the single section
`{virtualAddress := 0, virtualSize := 1, pointerToRawData := 0,
sizeOfRawData := 1}`, RVA 0 legitimately resolves to file offset 0, while
RVA 5 is contained in no section; `resolveRVA` returns 0 in both cases, so
the "unresolved" result is indistinguishable from a resolved offset 0. -/
theorem c3_counterexample : ¬ claimC3Stated := by
  intro h
  exact h [] [] ⟨0, 0, 0, 0, 0, 0, 0⟩ ⟨0, 0, 0, 0, 0, 0, 0⟩ ⟨0, 0, []⟩ ⟨0, 0, []⟩
    [⟨[], 1, 0, 1, 0, 0, 0, 0, 0, 0⟩] [⟨[], 1, 0, 1, 0, 0, 0, 0, 0, 0⟩] 5 0
    (by decide)
    ⟨[], ⟨[], 1, 0, 1, 0, 0, 0, 0, 0, 0⟩, [], rfl, by decide, by decide,
      by decide, by decide⟩
    (by decide)

/-- C3 (amended): for file-backed input, `resolveRVA` returns the sentinel
value 0 both when no section's (`uint32`) virtual range contains the RVA and
when the first matching section's computed offset reaches the raw-data end;
that sentinel coincides with a legitimately resolved file offset of zero
(third conjunct), so the two outcomes are not distinguishable. -/
theorem c3_resolveRVA :
    (∀ (data : List Nat) (fh : FileHeader) (oh : OptionalHeader)
       (secs : List SectionHeader32) (rva : Nat),
       (∀ s ∈ secs, ¬ codeMatches s (rva % u32Mod)) →
       resolveRVA ⟨.file data, fh, oh, secs⟩ rva = 0) ∧
    (∀ (data : List Nat) (fh : FileHeader) (oh : OptionalHeader)
       (pre post : List SectionHeader32) (s : SectionHeader32) (rva : Nat),
       (∀ t ∈ pre, ¬ codeMatches t (rva % u32Mod)) →
       codeMatches s (rva % u32Mod) →
       (s.pointerToRawData + s.sizeOfRawData) % u32Mod ≤
         (s.pointerToRawData + (rva % u32Mod - s.virtualAddress)) % u32Mod →
       resolveRVA ⟨.file data, fh, oh, pre ++ s :: post⟩ rva = 0) ∧
    (legitimatelyResolves [⟨[], 1, 0, 1, 0, 0, 0, 0, 0, 0⟩] 0 0 ∧
     resolveRVA ⟨.file [], ⟨0, 0, 0, 0, 0, 0, 0⟩, ⟨0, 0, []⟩,
       [⟨[], 1, 0, 1, 0, 0, 0, 0, 0, 0⟩]⟩ 0 = 0 ∧
     (∀ s ∈ [(⟨[], 1, 0, 1, 0, 0, 0, 0, 0, 0⟩ : SectionHeader32)],
        ¬ codeMatches s (5 % u32Mod)) ∧
     resolveRVA ⟨.file [], ⟨0, 0, 0, 0, 0, 0, 0⟩, ⟨0, 0, []⟩,
       [⟨[], 1, 0, 1, 0, 0, 0, 0, 0, 0⟩]⟩ 5 = 0) := by
  refine ⟨?_, ?_, ?_⟩
  · intro data fh oh secs rva hnone
    show resolveSections (rva % u32Mod) secs = 0
    induction secs with
    | nil => rfl
    | cons t rest ih =>
      rw [resolveSections_skip _ t rest (hnone t (List.mem_cons_self t rest))]
      exact ih (fun u hu => hnone u (List.mem_cons_of_mem t hu))
  · intro data fh oh pre post s rva hpre hs hge
    show resolveSections (rva % u32Mod) (pre ++ s :: post) = 0
    induction pre with
    | nil =>
      rw [List.nil_append, resolveSections_match _ s post hs, if_pos hge]
    | cons t pre ih =>
      rw [List.cons_append,
        resolveSections_skip _ t _ (hpre t (List.mem_cons_self t pre))]
      exact ih (fun u hu => hpre u (List.mem_cons_of_mem t hu))
  · exact ⟨⟨[], ⟨[], 1, 0, 1, 0, 0, 0, 0, 0, 0⟩, [], rfl, by decide, by decide,
      by decide, by decide⟩, by decide, by decide, by decide⟩

/-- Witness for `c3_resolveRVA` at concrete inputs: RVA 5 matches no section
of a one-section table and resolves to 0; RVA 1 matches a section whose
computed offset 1 reaches `pointerToRawData + sizeOfRawData = 1` and also
resolves to 0. -/
theorem c3_resolveRVA_witness :
    resolveRVA ⟨.file [], ⟨0, 0, 0, 0, 0, 0, 0⟩, ⟨0, 0, []⟩,
      [⟨[], 1, 0, 1, 0, 0, 0, 0, 0, 0⟩]⟩ 5 = 0 ∧
    resolveRVA ⟨.file [], ⟨0, 0, 0, 0, 0, 0, 0⟩, ⟨0, 0, []⟩,
      [] ++ ⟨[], 2, 0, 1, 0, 0, 0, 0, 0, 0⟩ :: []⟩ 1 = 0 :=
  ⟨c3_resolveRVA.1 [] ⟨0, 0, 0, 0, 0, 0, 0⟩ ⟨0, 0, []⟩
     [⟨[], 1, 0, 1, 0, 0, 0, 0, 0, 0⟩] 5 (by decide),
   c3_resolveRVA.2.1 [] ⟨0, 0, 0, 0, 0, 0, 0⟩ ⟨0, 0, []⟩ [] []
     ⟨[], 2, 0, 1, 0, 0, 0, 0, 0, 0⟩ 1 (by decide) (by decide) (by decide)⟩

/-- `expectedMachine` of the modelled build variant:
`dpe.IMAGE_FILE_MACHINE_ARM64` (0xAA64). -/
def expectedMachine : Nat := 43620

/-- `optionalHeaderMagic` of the modelled 64-bit build variant (0x020B). -/
def optionalHeaderMagic : Nat := 523

/-- `maxNumSections = 96`, the PE-spec cap applied by `loadHeaders`. -/
def maxNumSections : Nat := 96

/-- `unsafe.Sizeof(dpe.FileHeader{})` = 20 bytes. -/
def szFileHeader : Nat := 20

/-- `unsafe.Sizeof(dpe.OptionalHeader64{})` = 240 bytes. -/
def szOptionalHeader : Nat := 240

/-- `unsafe.Sizeof(peSectionHeader{})` = 40 bytes. -/
def szSectionHeader : Nat := 40

/-- Decode `dpe.FileHeader` from its 20 wire bytes. -/
def decodeFileHeader (b : List Nat) : FileHeader :=
  ⟨readU16 b 0, readU16 b 2, readU32 b 4, readU32 b 8, readU32 b 12,
   readU16 b 16, readU16 b 18⟩

/-- Decode `count` consecutive `dpe.DataDirectory` slots (8 bytes each). -/
def decodeDataDirs : Nat → List Nat → List DataDirectory
  | 0, _ => []
  | count + 1, b => ⟨readU32 b 0, readU32 b 4⟩ :: decodeDataDirs count (b.drop 8)

/-- Decode the fields of `optionalHeader` (`dpe.OptionalHeader64`) that the
parser consults: `Magic` at offset 0, `NumberOfRvaAndSizes` at offset 108,
and the 16 `DataDirectory` slots starting at offset 112. -/
def decodeOptionalHeader (b : List Nat) : OptionalHeader :=
  ⟨readU16 b 0, readU32 b 108, decodeDataDirs 16 (b.drop 112)⟩

/-- Decode one `dpe.SectionHeader32` from its 40 wire bytes. -/
def decodeSectionHeader (b : List Nat) : SectionHeader32 :=
  ⟨b.take 8, readU32 b 8, readU32 b 12, readU32 b 16, readU32 b 20,
   readU32 b 24, readU32 b 28, readU16 b 32, readU16 b 34, readU32 b 36⟩

/-- Decode `count` consecutive section headers (the contiguous array read by
`readStructArray[peSectionHeader]`). -/
def decodeSections : Nat → List Nat → List SectionHeader32
  | 0, _ => []
  | count + 1, b => decodeSectionHeader b :: decodeSections count (b.drop 40)

/-- `readStruct` / `readStructArray`: fetch `n` bytes at offset `off`.
For a `peFile`, `ReadAt` returning `io.EOF` or a short count is mapped to
`ErrInvalidBinary`.  For a `peModule`, the code instead bound-checks
`addr + szT >= v.Limit()` (note `>=`: a struct ending exactly at the limit
is rejected) and then reinterprets the memory directly. -/
def readStructBytes (r : PeReader) (off n : Nat) : Except PErr (List Nat) :=
  match r with
  | .file data =>
    if off + n ≤ data.length then .ok ((data.drop off).take n)
    else .error .errInvalidBinary
  | .module mem b =>
    if b + off + n ≥ b + mem.length then .error .errInvalidBinary
    else .ok ((mem.drop off).take n)

/-- Final stage of `loadHeaders`: check the optional header's magic, then
decode `min(numberOfSections, 96)` section records at
`optionalHeaderOffset + sizeOfOptionalHeader` (the offset trusts the
`SizeOfOptionalHeader` field, not the structure's nominal size). -/
def loadSectionsStage (r : PeReader) (e : Nat) (fileHeader : FileHeader)
    (optionalHeader : OptionalHeader) : Except PErr PEInfo :=
  if optionalHeader.magic ≠ optionalHeaderMagic then .error .errInvalidBinary
  else
    match readStructBytes r
        (e + 4 + szFileHeader + fileHeader.sizeOfOptionalHeader)
        (min fileHeader.numberOfSections maxNumSections * szSectionHeader) with
    | .error er => .error er
    | .ok sb =>
      .ok ⟨r, fileHeader, optionalHeader,
        decodeSections (min fileHeader.numberOfSections maxNumSections) sb⟩

/-- Middle stage of `loadHeaders`: reject a foreign machine, then read the
optional header with `readStruct` (EOF becomes `ErrInvalidBinary`). -/
def loadOptionalHeaderStage (r : PeReader) (e : Nat)
    (fileHeader : FileHeader) : Except PErr PEInfo :=
  if fileHeader.machine ≠ expectedMachine then .error .errUnsupportedMachine
  else
    match readStructBytes r (e + 4 + szFileHeader) szOptionalHeader with
    | .error er => .error er
    | .ok ohb => loadSectionsStage r e fileHeader (decodeOptionalHeader ohb)

/-- Stage of `loadHeaders` after the signatures and `e_lfanew` have been
verified: read the file header with `readStruct` (EOF becomes
`ErrInvalidBinary`) at `e_lfanew + 4`. -/
def loadFileHeaderStage (r : PeReader) (e : Nat) : Except PErr PEInfo :=
  match readStructBytes r (e + 4) szFileHeader with
  | .error er => .error er
  | .ok fhb => loadOptionalHeaderStage r e (decodeFileHeader fhb)

/-- `loadHeaders`: verify "MZ", read the signed `e_lfanew` at offset 60,
bound-check it, verify "PE\x00\x00", then decode the headers
(`loadFileHeaderStage` and the later stages above).

The two `ReadAt` calls and the `binary.Read` of `e_lfanew` surface raw I/O
errors unwrapped: a short `ReadAt` yields `io.EOF`, and `binary.Read`
(through `io.ReadFull`) yields `io.EOF` when no byte is available and
`io.ErrUnexpectedEOF` after a partial read.  Only the `readStruct` calls
translate `io.EOF`/short counts to `ErrInvalidBinary`. -/
def loadHeaders (r : PeReader) : Except PErr PEInfo :=
  if r.bytes.length < 2 then .error .ioEOF
  else if ¬ (byteAt r.bytes 0 = 77 ∧ byteAt r.bytes 1 = 90) then
    .error .errInvalidBinary
  else if r.bytes.length ≤ 60 then .error .ioEOF
  else if r.bytes.length < 64 then .error .ioUnexpectedEOF
  else if readU32 r.bytes 60 = 0 ∨ 2 ^ 31 ≤ readU32 r.bytes 60 then
    .error .errInvalidBinary
  else if r.base + readU32 r.bytes 60 ≥ r.limit then .error .errInvalidBinary
  else if r.bytes.length < readU32 r.bytes 60 + 4 then .error .ioEOF
  else if ¬ (byteAt r.bytes (readU32 r.bytes 60) = 80 ∧
             byteAt r.bytes (readU32 r.bytes 60 + 1) = 69 ∧
             byteAt r.bytes (readU32 r.bytes 60 + 2) = 0 ∧
             byteAt r.bytes (readU32 r.bytes 60 + 3) = 0) then
    .error .errInvalidBinary
  else loadFileHeaderStage r (readU32 r.bytes 60)

/-- `decodeSections` always yields exactly the requested count. -/
lemma decodeSections_length (count : Nat) :
    ∀ b : List Nat, (decodeSections count b).length = count := by
  induction count with
  | zero => intro b; rfl
  | succ n ih => intro b; simp [decodeSections, ih]

/-- A successful `loadSectionsStage` result decodes exactly
`min(numberOfSections, 96)` sections. -/
lemma loadSectionsStage_ok (r : PeReader) (e : Nat) (fh : FileHeader)
    (oh : OptionalHeader) (info : PEInfo)
    (h : loadSectionsStage r e fh oh = .ok info) :
    info.sections.length = min info.fileHeader.numberOfSections maxNumSections := by
  unfold loadSectionsStage at h
  repeat' split at h
  all_goals try (cases h)
  simp [decodeSections_length]

/-- A successful `loadOptionalHeaderStage` result decodes exactly
`min(numberOfSections, 96)` sections. -/
lemma loadOptionalHeaderStage_ok (r : PeReader) (e : Nat) (fh : FileHeader)
    (info : PEInfo) (h : loadOptionalHeaderStage r e fh = .ok info) :
    info.sections.length = min info.fileHeader.numberOfSections maxNumSections := by
  unfold loadOptionalHeaderStage at h
  repeat' split at h
  all_goals try (cases h)
  exact loadSectionsStage_ok _ _ _ _ _ h

/-- A successful `loadFileHeaderStage` result decodes exactly
`min(numberOfSections, 96)` sections. -/
lemma loadFileHeaderStage_ok (r : PeReader) (e : Nat)
    (info : PEInfo) (h : loadFileHeaderStage r e = .ok info) :
    info.sections.length = min info.fileHeader.numberOfSections maxNumSections := by
  unfold loadFileHeaderStage at h
  repeat' split at h
  all_goals try (cases h)
  exact loadOptionalHeaderStage_ok _ _ _ _ h

/-- C6: whenever `loadHeaders` succeeds, the number of decoded sections is
exactly `min(NumberOfSections, 96)`: a declared count above 96 is silently
truncated to 96 and is never by itself an error. -/
theorem c6_loadHeaders_sectionCount (d : List Nat) (info : PEInfo)
    (h : loadHeaders (.file d) = .ok info) :
    info.sections.length = min info.fileHeader.numberOfSections maxNumSections := by
  unfold loadHeaders at h
  repeat' split at h
  all_goals try (cases h)
  exact loadFileHeaderStage_ok _ _ _ h

/-- A concrete well-formed PE file: "MZ", `e_lfanew = 64`, "PE\x00\x00" at 64,
a file header declaring machine 0xAA64, one section and
`SizeOfOptionalHeader = 240`, a 64-bit optional header (magic 0x020B), and
one all-zero section record. -/
def c6file : List Nat :=
  [77, 90] ++ List.replicate 58 0 ++ [64, 0, 0, 0] ++
  [80, 69, 0, 0] ++
  ([100, 170] ++ [1, 0] ++ List.replicate 12 0 ++ [240, 0] ++ [0, 0]) ++
  ([11, 2] ++ List.replicate 238 0) ++
  List.replicate 40 0

set_option maxRecDepth 10000 in
/-- Witness for `c6_loadHeaders_sectionCount`: `loadHeaders` succeeds on the
concrete valid PE file `c6file` and decodes `min(1, 96) = 1` section. -/
theorem c6_loadHeaders_sectionCount_witness :
    ∃ info, loadHeaders (.file c6file) = .ok info ∧
      info.sections.length = min info.fileHeader.numberOfSections maxNumSections :=
  ⟨_, rfl, c6_loadHeaders_sectionCount c6file _ rfl⟩

/-- `readStruct`/`readStructArray` never surface a raw EOF: their only
error is `ErrInvalidBinary`. -/
lemma readStructBytes_error (r : PeReader) (off n : Nat) (er : PErr)
    (h : readStructBytes r off n = .error er) : er = .errInvalidBinary := by
  unfold readStructBytes at h
  repeat' split at h
  all_goals cases h
  all_goals rfl

/-- `loadSectionsStage` fails only with `ErrInvalidBinary`. -/
lemma loadSectionsStage_error (r : PeReader) (e : Nat) (fh : FileHeader)
    (oh : OptionalHeader) (er : PErr)
    (h : loadSectionsStage r e fh oh = .error er) : er = .errInvalidBinary := by
  unfold loadSectionsStage at h
  repeat' split at h
  all_goals try (cases h)
  · rfl
  · exact readStructBytes_error _ _ _ _ (by assumption)

/-- `loadOptionalHeaderStage` fails only with `ErrInvalidBinary` or
`ErrUnsupportedMachine`. -/
lemma loadOptionalHeaderStage_error (r : PeReader) (e : Nat) (fh : FileHeader)
    (er : PErr) (h : loadOptionalHeaderStage r e fh = .error er) :
    er = .errInvalidBinary ∨ er = .errUnsupportedMachine := by
  unfold loadOptionalHeaderStage at h
  repeat' split at h
  all_goals try (cases h)
  · exact Or.inr rfl
  · exact Or.inl (readStructBytes_error _ _ _ _ (by assumption))
  · exact Or.inl (loadSectionsStage_error _ _ _ _ _ h)

/-- `loadFileHeaderStage` fails only with `ErrInvalidBinary` or
`ErrUnsupportedMachine`. -/
lemma loadFileHeaderStage_error (r : PeReader) (e : Nat) (er : PErr)
    (h : loadFileHeaderStage r e = .error er) :
    er = .errInvalidBinary ∨ er = .errUnsupportedMachine := by
  unfold loadFileHeaderStage at h
  repeat' split at h
  all_goals try (cases h)
  · exact Or.inl (readStructBytes_error _ _ _ _ (by assumption))
  · exact loadOptionalHeaderStage_error _ _ _ _ h

/-- The signature phase of `loadHeaders` succeeds on `d` (file-backed):
"MZ" present, `e_lfanew` positive, in bounds and with "PE\x00\x00" at it. -/
def headersPhaseOK (d : List Nat) : Prop :=
  2 ≤ d.length ∧ (byteAt d 0 = 77 ∧ byteAt d 1 = 90) ∧ 64 ≤ d.length ∧
  readU32 d 60 ≠ 0 ∧ readU32 d 60 < 2 ^ 31 ∧
  readU32 d 60 < d.length ∧ readU32 d 60 + 4 ≤ d.length ∧
  (byteAt d (readU32 d 60) = 80 ∧ byteAt d (readU32 d 60 + 1) = 69 ∧
   byteAt d (readU32 d 60 + 2) = 0 ∧ byteAt d (readU32 d 60 + 3) = 0)

instance (d : List Nat) : Decidable (headersPhaseOK d) := by
  unfold headersPhaseOK; infer_instance

/-- C4, counterexample to the claim as stated: the empty file is an input
shorter than 64 bytes, and `loadHeaders` fails on it with the raw `io.EOF`
surfaced by `ReadAt`, not with the structural `ErrInvalidBinary`. -/
theorem c4_counterexample :
    loadHeaders (.file ([] : List Nat)) = .error .ioEOF ∧
    ([] : List Nat).length < 64 ∧ PErr.ioEOF ≠ PErr.errInvalidBinary :=
  ⟨rfl, by decide, by decide⟩

/-- C4 (amended): an input shorter than 64 bytes always fails, but with
`ErrInvalidBinary` *or* a raw EOF condition (`io.EOF`/`io.ErrUnexpectedEOF`),
since the DOS/PE-signature and `e_lfanew` reads surface raw I/O errors
unwrapped; once the signatures and next-header pointer have been read and
verified (`headersPhaseOK`), every further failure — file header, optional
header or section table — is reported as `ErrInvalidBinary` (or
`ErrUnsupportedMachine`), never as a raw end-of-file condition. -/
theorem c4_loadHeaders_eofHandling :
    (∀ d : List Nat, d.length < 64 →
       ∃ er, loadHeaders (.file d) = .error er ∧
         (er = .errInvalidBinary ∨ er = .ioEOF ∨ er = .ioUnexpectedEOF)) ∧
    (∀ (d : List Nat) (er : PErr), headersPhaseOK d →
       loadHeaders (.file d) = .error er →
       er ≠ .ioEOF ∧ er ≠ .ioUnexpectedEOF) := by
  constructor
  · intro d hd
    unfold loadHeaders
    by_cases h1 : (PeReader.file d).bytes.length < 2
    · exact ⟨.ioEOF, by rw [if_pos h1], by simp⟩
    · by_cases h2 : ¬ (byteAt (PeReader.file d).bytes 0 = 77 ∧
          byteAt (PeReader.file d).bytes 1 = 90)
      · exact ⟨.errInvalidBinary, by rw [if_neg h1, if_pos h2], by simp⟩
      · by_cases h3 : (PeReader.file d).bytes.length ≤ 60
        · exact ⟨.ioEOF, by rw [if_neg h1, if_neg h2, if_pos h3], by simp⟩
        · have h4 : (PeReader.file d).bytes.length < 64 := hd
          exact ⟨.ioUnexpectedEOF,
            by rw [if_neg h1, if_neg h2, if_neg h3, if_pos h4], by simp⟩
  · intro d er hpok h
    obtain ⟨p1, p2, p3, p4, p5, p6, p7, p8⟩ := hpok
    unfold loadHeaders at h
    simp only [PeReader.bytes, PeReader.base, PeReader.limit] at h
    rw [if_neg (by omega), if_neg (not_not_intro p2), if_neg (by omega),
      if_neg (by omega), if_neg (by omega), if_neg (by omega),
      if_neg (by omega), if_neg (not_not_intro p8)] at h
    rcases loadFileHeaderStage_error _ _ _ h with rfl | rfl
    · exact ⟨by simp, by simp⟩
    · exact ⟨by simp, by simp⟩

/-- A 64-byte file passing the signature phase (`e_lfanew = 2` points at a
"PE\x00\x00" inside the DOS header area) whose file header then declares a
foreign machine. -/
def c4file : List Nat :=
  [77, 90, 80, 69, 0, 0] ++ List.replicate 54 0 ++ [2, 0, 0, 0]

set_option maxRecDepth 10000 in
/-- Witness for `c4_loadHeaders_eofHandling`: the one-byte file `[77]` is
shorter than 64 bytes and fails with one of the listed errors, and the
concrete signature-phase-passing file `c4file` fails with
`ErrUnsupportedMachine`, which is not a raw EOF condition. -/
theorem c4_loadHeaders_eofHandling_witness :
    (∃ er, loadHeaders (.file [77]) = .error er ∧
       (er = .errInvalidBinary ∨ er = .ioEOF ∨ er = .ioUnexpectedEOF)) ∧
    (PErr.errUnsupportedMachine ≠ .ioEOF ∧
     PErr.errUnsupportedMachine ≠ .ioUnexpectedEOF) :=
  ⟨c4_loadHeaders_eofHandling.1 [77] (by decide),
   c4_loadHeaders_eofHandling.2 c4file .errUnsupportedMachine (by decide) rfl⟩

/-- `_WIN_CERTIFICATE_HEADER`: `{Length uint32, Revision uint16,
CertificateType uint16}`, 8 bytes on the wire. -/
structure WIN_CERTIFICATE_HEADER where
  length : Nat
  revision : Nat
  certificateType : Nat
deriving DecidableEq, Repr

/-- `AuthenticodeCert`: a decoded certificate entry (header + raw payload). -/
structure AuthenticodeCert where
  header : WIN_CERTIFICATE_HEADER
  data : List Nat
deriving DecidableEq, Repr

/-- `unsafe.Sizeof(_WIN_CERTIFICATE_HEADER{})` = 8 bytes. -/
def szWIN_CERTIFICATE_HEADER : Nat := 8

/-- `unsafe.Sizeof(AuthenticodeCert{})` on the 64-bit build: the 8-byte
embedded header plus a 24-byte Go slice header = 32 bytes.  This — not the
8-byte wire header — is what `extractAuthenticode` assigns to `szEntry`. -/
def szAuthenticodeCert : Nat := 32

/-- `alignUp(v, powerOfTwo)` = `v + ((-v) & (powerOfTwo-1))` for the
non-negative values it is used with. -/
def alignUp (v p : Nat) : Nat := v + (p - v % p) % p

/-- The loop of `extractAuthenticode` over the `io.SectionReader` bounded to
`[off0, off0+size)` of the file bytes `data`.  `pos` is the reader position
(equal to `curOffset` at the top of each iteration).  Per iteration:
`binary.Read` of the 8-byte header (`io.EOF` at exhaustion ends the loop,
a partial read surfaces `io.ErrUnexpectedEOF`); `make([]byte,
length - szEntry)` with `szEntry = unsafe.Sizeof(AuthenticodeCert{}) = 32`
(panicking when `length < 32` because the `uintptr` subtraction wraps);
one `Read` into the payload (raw `io.EOF` if the reader or file is
exhausted, `ErrBadLength` if the section range truncates it); then
`curOffset` — advanced by 32 for the header and by the payload length —
is aligned up to 8 and the reader seeks there.  The `fuel` parameter only
bounds the recursion. -/
def extractAuthenticodeLoop (data : List Nat) (off0 size : Nat) :
    Nat → Nat → List AuthenticodeCert → Except PErr (List AuthenticodeCert)
  | 0, _, _ => .error .fuelExhausted
  | fuel + 1, pos, acc =>
    if min (size - pos) (data.length - (off0 + pos)) = 0 then .ok acc
    else if min (size - pos) (data.length - (off0 + pos)) <
        szWIN_CERTIFICATE_HEADER then .error .ioUnexpectedEOF
    else if readU32 data (off0 + pos) < szAuthenticodeCert then
      .error .runtimePanic
    else if size ≤ pos + szWIN_CERTIFICATE_HEADER then .error .ioEOF
    else
      if min (min (readU32 data (off0 + pos) - szAuthenticodeCert)
            (size - (pos + szWIN_CERTIFICATE_HEADER)))
          (data.length - (off0 + pos + szWIN_CERTIFICATE_HEADER)) <
          min (readU32 data (off0 + pos) - szAuthenticodeCert)
            (size - (pos + szWIN_CERTIFICATE_HEADER)) then .error .ioEOF
      else if min (min (readU32 data (off0 + pos) - szAuthenticodeCert)
            (size - (pos + szWIN_CERTIFICATE_HEADER)))
          (data.length - (off0 + pos + szWIN_CERTIFICATE_HEADER)) <
          readU32 data (off0 + pos) - szAuthenticodeCert then
        .error .errBadLength
      else
        extractAuthenticodeLoop data off0 size fuel
          (alignUp (pos + szAuthenticodeCert +
            (readU32 data (off0 + pos) - szAuthenticodeCert)) 8)
          (acc ++ [⟨⟨readU32 data (off0 + pos), readU16 data (off0 + pos + 4),
            readU16 data (off0 + pos + 6)⟩,
            (data.drop (off0 + pos + szWIN_CERTIFICATE_HEADER)).take
              (readU32 data (off0 + pos) - szAuthenticodeCert)⟩])

/-- `extractAuthenticode`: fails `ErrUnavailableInModule` for module-backed
input; otherwise runs the certificate loop over `[VirtualAddress,
VirtualAddress+Size)` of the file (that slot's `VirtualAddress` is a direct
file offset).  The supplied fuel `Size + 1` exceeds the loop's iteration
count (each iteration advances the position by at least 32). -/
def extractAuthenticode (nfo : PEInfo) (dde : DataDirectory) :
    Except PErr (List AuthenticodeCert) :=
  match nfo.r with
  | .module _ _ => .error .errUnavailableInModule
  | .file data =>
    extractAuthenticodeLoop data dde.virtualAddress dde.size (dde.size + 1) 0 []

/-- `IMAGE_DEBUG_DIRECTORY` (28 bytes on the wire); `debugType` embeds the
Go field `Type`. -/
structure IMAGE_DEBUG_DIRECTORY where
  characteristics : Nat
  timeDateStamp : Nat
  majorVersion : Nat
  minorVersion : Nat
  debugType : Nat
  sizeOfData : Nat
  addressOfRawData : Nat
  pointerToRawData : Nat
deriving DecidableEq, Repr

/-- `unsafe.Sizeof(IMAGE_DEBUG_DIRECTORY{})` = 28 bytes. -/
def szIMAGE_DEBUG_DIRECTORY : Nat := 28

/-- Decode `count` consecutive `IMAGE_DEBUG_DIRECTORY` records. -/
def decodeDebugDirs : Nat → List Nat → List IMAGE_DEBUG_DIRECTORY
  | 0, _ => []
  | count + 1, b =>
    ⟨readU32 b 0, readU32 b 4, readU16 b 8, readU16 b 10, readU32 b 12,
     readU32 b 16, readU32 b 20, readU32 b 24⟩ :: decodeDebugDirs count (b.drop 28)

/-- `extractDebugInfo`: `count = Size / 28` records read with
`readStructArray` at the resolved offset of the slot's `VirtualAddress`. -/
def extractDebugInfo (nfo : PEInfo) (dde : DataDirectory) :
    Except PErr (List IMAGE_DEBUG_DIRECTORY) :=
  match readStructBytes nfo.r (resolveRVA nfo dde.virtualAddress)
      (dde.size / szIMAGE_DEBUG_DIRECTORY * szIMAGE_DEBUG_DIRECTORY) with
  | .error er => .error er
  | .ok b => .ok (decodeDebugDirs (dde.size / szIMAGE_DEBUG_DIRECTORY) b)

/-- The discriminated result of `DataDirectoryEntry` (its Go return type is
`any`): the raw slot, a certificate sequence, or a debug-directory sequence. -/
inductive DDEValue where
  | dataDir (dde : DataDirectory)
  | certs (cs : List AuthenticodeCert)
  | debugDirs (ds : List IMAGE_DEBUG_DIRECTORY)
deriving DecidableEq, Repr

/-- `dpe.IMAGE_DIRECTORY_ENTRY_SECURITY` = 4. -/
def IMAGE_DIRECTORY_ENTRY_SECURITY : Int := 4

/-- `dpe.IMAGE_DIRECTORY_ENTRY_DEBUG` = 6. -/
def IMAGE_DIRECTORY_ENTRY_DEBUG : Int := 6

/-- `(*PEInfo).dataDirectory()`: the directory clipped to
`min(NumberOfRvaAndSizes, len(DataDirectory))` slots (the decoded array has
16 slots). -/
def PEInfo.dataDirectory (nfo : PEInfo) : List DataDirectory :=
  nfo.optionalHeader.dataDirectory.take
    (min nfo.optionalHeader.numberOfRvaAndSizes
      nfo.optionalHeader.dataDirectory.length)

/-- The slot `dd[i]` for an index already known to be in bounds. -/
def ddSlot (nfo : PEInfo) (i : Nat) : DataDirectory :=
  nfo.dataDirectory.getD i ⟨1, 1⟩

/-- `DataDirectoryEntry(idx)`: the Go code guards only `idx >= len(dd)`
(`ErrIndexOutOfRange`); for `0 ≤ idx < len(dd)` the slot is read —
`ErrNotPresent` when `VirtualAddress == 0 || Size == 0`, otherwise dispatch
on the index (4 = security, 6 = debug, default = the raw slot); for a
negative `idx` the unguarded `dd[idx]` is an out-of-range slice index,
a Go runtime panic, modelled as `.error .runtimePanic`. -/
def DataDirectoryEntry (nfo : PEInfo) (idx : Int) : Except PErr DDEValue :=
  if (nfo.dataDirectory.length : Int) ≤ idx then .error .errIndexOutOfRange
  else if 0 ≤ idx then
    if (ddSlot nfo idx.toNat).virtualAddress = 0 ∨
        (ddSlot nfo idx.toNat).size = 0 then .error .errNotPresent
    else if idx = IMAGE_DIRECTORY_ENTRY_SECURITY then
      match extractAuthenticode nfo (ddSlot nfo idx.toNat) with
      | .error er => .error er
      | .ok cs => .ok (.certs cs)
    else if idx = IMAGE_DIRECTORY_ENTRY_DEBUG then
      match extractDebugInfo nfo (ddSlot nfo idx.toNat) with
      | .error er => .error er
      | .ok ds => .ok (.debugDirs ds)
    else .ok (.dataDir (ddSlot nfo idx.toNat))
  else .error .runtimePanic

/-- The certificate loop can fail in several ways, but never with
`ErrNotPresent`. -/
lemma extractAuthenticodeLoop_ne_notPresent (fuel : Nat) :
    ∀ (data : List Nat) (off0 size pos : Nat) (acc : List AuthenticodeCert),
      extractAuthenticodeLoop data off0 size fuel pos acc ≠
        .error .errNotPresent := by
  induction fuel with
  | zero =>
    intro data off0 size pos acc h
    exact absurd h (by simp [extractAuthenticodeLoop])
  | succ n ih =>
    intro data off0 size pos acc h
    unfold extractAuthenticodeLoop at h
    repeat' split at h
    all_goals try simp at h
    exact ih _ _ _ _ _ h

/-- `extractAuthenticode` never fails with `ErrNotPresent`. -/
lemma extractAuthenticode_ne_notPresent (nfo : PEInfo) (dde : DataDirectory) :
    extractAuthenticode nfo dde ≠ .error .errNotPresent := by
  unfold extractAuthenticode
  split
  · simp
  · exact extractAuthenticodeLoop_ne_notPresent _ _ _ _ _ _

/-- `extractDebugInfo` never fails with `ErrNotPresent`. -/
lemma extractDebugInfo_ne_notPresent (nfo : PEInfo) (dde : DataDirectory) :
    extractDebugInfo nfo dde ≠ .error .errNotPresent := by
  unfold extractDebugInfo
  split
  · next er heq =>
    have := readStructBytes_error _ _ _ _ heq
    simp [this]
  · simp

/-- C5: for an index inside `min(NumberOfRvaAndSizes, 16)` (the length of
`dataDirectory`), `DataDirectoryEntry` yields `ErrNotPresent` exactly when
the slot has `VirtualAddress == 0` or `Size == 0`; for an index at or past
that bound it fails `ErrIndexOutOfRange`. -/
theorem c5_dataDirectoryEntry_notPresent (nfo : PEInfo) (idx : Int) :
    (0 ≤ idx → idx < (nfo.dataDirectory.length : Int) →
      ((DataDirectoryEntry nfo idx = .error .errNotPresent) ↔
        ((ddSlot nfo idx.toNat).virtualAddress = 0 ∨
         (ddSlot nfo idx.toNat).size = 0))) ∧
    ((nfo.dataDirectory.length : Int) ≤ idx →
      DataDirectoryEntry nfo idx = .error .errIndexOutOfRange) := by
  constructor
  · intro h0 hlen
    unfold DataDirectoryEntry
    rw [if_neg (by omega), if_pos h0]
    by_cases hp : (ddSlot nfo idx.toNat).virtualAddress = 0 ∨
        (ddSlot nfo idx.toNat).size = 0
    · rw [if_pos hp]
      simp [hp]
    · rw [if_neg hp]
      apply iff_of_false _ hp
      by_cases h4 : idx = IMAGE_DIRECTORY_ENTRY_SECURITY
      · rw [if_pos h4]
        intro hc
        cases hext : extractAuthenticode nfo (ddSlot nfo idx.toNat) with
        | error er =>
          rw [hext] at hc
          simp at hc
          exact extractAuthenticode_ne_notPresent nfo _ (by rw [hext, hc])
        | ok cs =>
          rw [hext] at hc
          simp at hc
      · rw [if_neg h4]
        by_cases h6 : idx = IMAGE_DIRECTORY_ENTRY_DEBUG
        · rw [if_pos h6]
          intro hc
          cases hext : extractDebugInfo nfo (ddSlot nfo idx.toNat) with
          | error er =>
            rw [hext] at hc
            simp at hc
            exact extractDebugInfo_ne_notPresent nfo _ (by rw [hext, hc])
          | ok ds =>
            rw [hext] at hc
            simp at hc
        · rw [if_neg h6]
          simp
  · intro hge
    unfold DataDirectoryEntry
    rw [if_pos hge]

/-- Witness for `c5_dataDirectoryEntry_notPresent`: a directory with the two
slots `{0, 5}` and `{7, 0}`; slot 0 has `VirtualAddress = 0`, so index 0
gives `ErrNotPresent` (the iff holds), and index 9 is out of range. -/
theorem c5_dataDirectoryEntry_notPresent_witness :
    ((DataDirectoryEntry ⟨.file [], ⟨0, 0, 0, 0, 0, 0, 0⟩,
        ⟨0, 2, [⟨0, 5⟩, ⟨7, 0⟩]⟩, []⟩ 0 = .error .errNotPresent) ↔
      ((ddSlot ⟨.file [], ⟨0, 0, 0, 0, 0, 0, 0⟩,
          ⟨0, 2, [⟨0, 5⟩, ⟨7, 0⟩]⟩, []⟩ 0).virtualAddress = 0 ∨
       (ddSlot ⟨.file [], ⟨0, 0, 0, 0, 0, 0, 0⟩,
          ⟨0, 2, [⟨0, 5⟩, ⟨7, 0⟩]⟩, []⟩ 0).size = 0)) ∧
    DataDirectoryEntry ⟨.file [], ⟨0, 0, 0, 0, 0, 0, 0⟩,
      ⟨0, 2, [⟨0, 5⟩, ⟨7, 0⟩]⟩, []⟩ 9 = .error .errIndexOutOfRange :=
  ⟨(c5_dataDirectoryEntry_notPresent
      ⟨.file [], ⟨0, 0, 0, 0, 0, 0, 0⟩, ⟨0, 2, [⟨0, 5⟩, ⟨7, 0⟩]⟩, []⟩ 0).1
      (by decide) (by decide),
   (c5_dataDirectoryEntry_notPresent
      ⟨.file [], ⟨0, 0, 0, 0, 0, 0, 0⟩, ⟨0, 2, [⟨0, 5⟩, ⟨7, 0⟩]⟩, []⟩ 9).2
      (by decide)⟩

/-- C7: on a module-backed (memory-mapped) bundle, a present security slot
(index 4) fails with `ErrUnavailableInModule` — not a structural error —
and no index whatsoever can produce a certificate sequence. -/
theorem c7_security_unavailableInModule (mem : List Nat) (b : Nat)
    (fh : FileHeader) (oh : OptionalHeader) (secs : List SectionHeader32) :
    ((4 : Int) <
        ((PEInfo.dataDirectory ⟨.module mem b, fh, oh, secs⟩).length : Int) →
     (ddSlot ⟨.module mem b, fh, oh, secs⟩ 4).virtualAddress ≠ 0 →
     (ddSlot ⟨.module mem b, fh, oh, secs⟩ 4).size ≠ 0 →
     DataDirectoryEntry ⟨.module mem b, fh, oh, secs⟩ 4 =
       .error .errUnavailableInModule) ∧
    (∀ (idx : Int) (cs : List AuthenticodeCert),
      DataDirectoryEntry ⟨.module mem b, fh, oh, secs⟩ idx ≠
        .ok (.certs cs)) := by
  constructor
  · intro hlen hva hsz
    unfold DataDirectoryEntry
    rw [if_neg (by omega), if_pos (by omega), if_neg (by simp [hva, hsz]),
      if_pos (show (4 : Int) = IMAGE_DIRECTORY_ENTRY_SECURITY by rfl)]
    rfl
  · intro idx cs hc
    unfold DataDirectoryEntry at hc
    repeat' split at hc
    all_goals simp_all [extractAuthenticode]

/-- Witness for `c7_security_unavailableInModule`: a module-backed bundle
whose 16 directory slots are all `{1, 1}`: the security slot yields
`ErrUnavailableInModule`, and slot 0 never yields certificates. -/
theorem c7_security_unavailableInModule_witness :
    DataDirectoryEntry ⟨.module [] 0, ⟨0, 0, 0, 0, 0, 0, 0⟩,
        ⟨0, 16, List.replicate 16 ⟨1, 1⟩⟩, []⟩ 4 =
      .error .errUnavailableInModule ∧
    DataDirectoryEntry ⟨.module [] 0, ⟨0, 0, 0, 0, 0, 0, 0⟩,
        ⟨0, 16, List.replicate 16 ⟨1, 1⟩⟩, []⟩ 0 ≠ .ok (.certs []) :=
  ⟨(c7_security_unavailableInModule [] 0 ⟨0, 0, 0, 0, 0, 0, 0⟩
      ⟨0, 16, List.replicate 16 ⟨1, 1⟩⟩ []).1 (by decide) (by decide) (by decide),
   (c7_security_unavailableInModule [] 0 ⟨0, 0, 0, 0, 0, 0, 0⟩
      ⟨0, 16, List.replicate 16 ⟨1, 1⟩⟩ []).2 0 []⟩

/-- C10: the bounds check of `DataDirectoryEntry` only rejects
`idx >= len(dd)`, so a negative index is not answered with
`ErrIndexOutOfRange`; instead the slot access `dd[idx]` indexes the slice
out of bounds — a Go runtime panic. -/
theorem c10_dataDirectoryEntry_negativeIndex (nfo : PEInfo) (idx : Int)
    (h : idx < 0) :
    DataDirectoryEntry nfo idx = .error .runtimePanic ∧
    DataDirectoryEntry nfo idx ≠ .error .errIndexOutOfRange := by
  have h1 : ¬ ((nfo.dataDirectory.length : Int) ≤ idx) := by omega
  have h2 : ¬ (0 ≤ idx) := by omega
  unfold DataDirectoryEntry
  rw [if_neg h1, if_neg h2]
  exact ⟨rfl, by simp⟩

/-- Witness for `c10_dataDirectoryEntry_negativeIndex` at index -1 on a
concrete bundle. -/
theorem c10_dataDirectoryEntry_negativeIndex_witness :
    DataDirectoryEntry ⟨.file [], ⟨0, 0, 0, 0, 0, 0, 0⟩, ⟨0, 0, []⟩, []⟩ (-1) =
      .error .runtimePanic ∧
    DataDirectoryEntry ⟨.file [], ⟨0, 0, 0, 0, 0, 0, 0⟩, ⟨0, 0, []⟩, []⟩ (-1) ≠
      .error .errIndexOutOfRange :=
  c10_dataDirectoryEntry_negativeIndex
    ⟨.file [], ⟨0, 0, 0, 0, 0, 0, 0⟩, ⟨0, 0, []⟩, []⟩ (-1) (by decide)

/-- The 32-byte payload of the single certificate entry in `c1file`. -/
def c1payload : List Nat :=
  [1, 2, 3, 4, 5, 6, 7, 8, 9, 10, 11, 12, 13, 14, 15, 16, 17, 18, 19, 20,
   21, 22, 23, 24, 25, 26, 27, 28, 29, 30, 31, 32]

/-- A well-formed security directory: one certificate entry with
`Length = 40` (8-byte header + 32-byte payload), `Revision = 0x0200`,
`CertificateType = 2`, ending on an 8-byte boundary. -/
def c1file : List Nat := [40, 0, 0, 0, 0, 2, 2, 0] ++ c1payload

/-- C1: evaluation of `extractAuthenticode` at the failing inputs.  Because
`szEntry` is `unsafe.Sizeof(AuthenticodeCert{})` = 32 (header plus Go slice
header) instead of the 8-byte wire header, the payload of the entry in
`c1file` is computed as `40 - 32 = 8` bytes: extraction "succeeds" but
returns only the first 8 payload bytes, not the 32 stored ones (the
repository's own test derives payloads with the 8-byte
`_WIN_CERTIFICATE_HEADER` size and compares with `DeepEqual`).  A minimal
header-only entry (`Length = 16`, 8-byte payload) makes
`uintptr(Length) - szEntry` wrap around, so `make([]byte, ...)` panics. -/
theorem c1_authenticode_payload_bug :
    extractAuthenticode ⟨.file c1file, ⟨0, 0, 0, 0, 0, 0, 0⟩, ⟨0, 0, []⟩, []⟩
        ⟨0, 40⟩ =
      .ok [⟨⟨40, 512, 2⟩, [1, 2, 3, 4, 5, 6, 7, 8]⟩] ∧
    [1, 2, 3, 4, 5, 6, 7, 8] ≠ c1payload ∧
    extractAuthenticode
        ⟨.file [16, 0, 0, 0, 0, 2, 2, 0, 9, 9, 9, 9, 9, 9, 9, 9],
         ⟨0, 0, 0, 0, 0, 0, 0⟩, ⟨0, 0, []⟩, []⟩ ⟨0, 16⟩ =
      .error .runtimePanic :=
  ⟨rfl, by decide, rfl⟩

/-- An uppercase hexadecimal digit ('0'-'9', 'A'-'F'). -/
def hexDigitUpper (n : Nat) : Char :=
  if n < 10 then Char.ofNat (48 + n) else Char.ofNat (55 + n)

/-- The minimal uppercase hexadecimal digit string of `n` (fuel-bounded;
fuel 16 covers every value below 2^64). -/
def hexDigitsUpper : Nat → Nat → List Char
  | 0, _ => []
  | fuel + 1, n =>
    if n < 16 then [hexDigitUpper n]
    else hexDigitsUpper fuel (n / 16) ++ [hexDigitUpper (n % 16)]

/-- Go's `%0<width>X` verb on an unsigned integer: the minimal uppercase hex
digits, left-padded with '0' to `width` (width 0 models plain `%X`). -/
def goHexUpper (width n : Nat) : List Char :=
  List.replicate (width - (hexDigitsUpper 16 n).length) '0' ++ hexDigitsUpper 16 n

/-- `windows.GUID`: `{Data1 uint32, Data2 uint16, Data3 uint16,
Data4 [8]byte}`. -/
structure GUID where
  data1 : Nat
  data2 : Nat
  data3 : Nat
  data4 : List Nat
deriving DecidableEq, Repr

/-- `IMAGE_DEBUG_INFO_CODEVIEW_UNPACKED`: GUID, age, and the NUL-terminated
PDB path read after them. -/
structure IMAGE_DEBUG_INFO_CODEVIEW_UNPACKED where
  guid : GUID
  age : Nat
  pdbPath : List Nat
deriving DecidableEq, Repr

/-- The `String` method of `IMAGE_DEBUG_INFO_CODEVIEW_UNPACKED`:
`Fprintf("%08X%04X%04X", Data1, Data2, Data3)`, then `"%02X"` for each of
the 8 `Data4` bytes, then `"%X"` of the age. -/
def cvString (u : IMAGE_DEBUG_INFO_CODEVIEW_UNPACKED) : String :=
  String.mk (goHexUpper 8 u.guid.data1 ++ goHexUpper 4 u.guid.data2 ++
    goHexUpper 4 u.guid.data3 ++
    List.foldl (fun acc v => acc ++ goHexUpper 2 v) [] u.guid.data4 ++
    goHexUpper 0 u.age)

/-- C8: the CodeView record with GUID {12345678-ABCD-EF01-0203-040506070809}
and age 7 formats as "12345678ABCDEF0102030405060708097": 8/4/4 uppercase
hex digits of the three GUID fields, 2 digits per trailing byte, and the
age in uppercase hex with no leading-zero padding, all unseparated. -/
theorem c8_codeview_string :
    cvString ⟨⟨0x12345678, 0xABCD, 0xEF01, [2, 3, 4, 5, 6, 7, 8, 9]⟩, 7, []⟩ =
      "12345678ABCDEF0102030405060708097" := by decide

/-- Modelled from the spec: the `Close` of the header bundle / its
file-backed AddressSpace is not present under `src/` (only its callers in
the tests are); spec section 4.1 specifies `close()` as "releases owned
resources, idempotent".  The state is whether the file handle is still
owned; closing releases it and reports no error, also when already
released. -/
structure FileAddressSpace where
  handleOpen : Bool
deriving DecidableEq, Repr

/-- Modelled from the spec: `close()` — release the handle if still owned;
idempotent, never an error. -/
def closeFileAddressSpace (s : FileAddressSpace) :
    Option PErr × FileAddressSpace :=
  if s.handleOpen then (none, ⟨false⟩) else (none, s)

/-- C9: closing a file-backed AddressSpace releases the handle and reports
no error, and a second close after a successful first close reports no
error either. -/
theorem c9_close_twice_no_error :
    (closeFileAddressSpace ⟨true⟩).1 = none ∧
    (closeFileAddressSpace ⟨true⟩).2.handleOpen = false ∧
    (closeFileAddressSpace (closeFileAddressSpace ⟨true⟩).2).1 = none := by
  decide
